import Mathlib

/-!
# Voice rooms: a shallow embedding of `src/voice-rooms/src/main.js`

The program is a single JavaScript module.  Its mutable state is

* the module variable `audioTracks` (`localAudioTrack`, `remoteAudioTracks`),
* the children of the DOM element `#members` (one `div.speaker` per call of
  `insertAdjacentHTML`), and
* the `display` style of `#form` and `#room-header`.

Every handler of the module is embedded as a function from the state before
the call to an `Outcome`: the state after the call, the calls made on the
external SDK / console / style objects in program order, and the error the
handler ended with, if any.  Results of SDK promises (join, microphone,
publish, subscribe) are inputs of the embedding.

`rtcClient` is assigned at the first statement of `initRtc`, before any
handler is registered on it and before `localAudioTrack` is assigned, so every
use of `rtcClient` that the embedding reaches is on a created client; the
variable itself is not part of the state.  A handler runs from its first to
its last statement without another handler in between.

The page (`index.html`, outside the module) is taken to hold the elements
`#form`, `#room-header`, `#members` and `#leave-icon`, and no element of its
own with a numeric id or a `user-rtc-` class: the only elements a lookup by
user id can find are the children of `#members`.
-/

namespace VoiceRooms

/-- User ids: `rtcUid` is `Math.floor(Math.random() * 2032)`, remote ids are
the numeric `user.uid` of the SDK. -/
abbrev Uid := Nat

/-- Values of `item.style.borderColor`: never assigned, `'#00ff00'`, `"#fff"`. -/
inductive BorderColor where
  | unset
  | green
  | white
deriving DecidableEq

/-- The element `<div class="speaker user-rtc-${uid}" id="${uid}">` inserted
into `#members`; `uid` is both its id and the suffix of its class. -/
structure Speaker where
  uid : Uid
  borderColor : BorderColor
deriving DecidableEq

/-- An audio track object of the SDK, with the effect of the methods the
module calls on it: `play()`, `stop()`, `close()`. -/
structure Track where
  handle : Nat
  playing : Bool
  stopped : Bool
  closed : Bool
deriving DecidableEq

/-- Values of `style.display` the module assigns, and the value from the page
before any assignment. -/
inductive Display where
  | initial
  | none
  | block
  | flex
deriving DecidableEq

/-- The `mediaType` argument of the SDK event `user-published`. -/
inductive MediaType where
  | audio
  | video
  | datachannel
deriving DecidableEq

/-- Events a handler is registered for with `rtcClient.on`. -/
inductive ClientEvent where
  | userJoined
  | userPublished
  | userLeft
  | volumeIndicator
deriving DecidableEq

/-- One entry of the array delivered with `volume-indicator`. -/
structure VolumeSample where
  uid : Uid
  level : Nat
deriving DecidableEq

/-- Calls the module makes on its collaborators, in program order. -/
inductive Op where
  | createClient
  | on (event : ClientEvent)
  | setParameter (interval : Nat)
  | enableAudioVolumeIndicator
  | join (uid : Uid)
  | createMicrophoneAudioTrack
  | publish (handle : Nat)
  | subscribe (uid : Uid) (mediaType : MediaType)
  | play (handle : Nat)
  | stop (handle : Nat)
  | close (handle : Nat)
  | unpublish
  | leave
  | setBorderColor (uid : Uid) (color : BorderColor)
  | consoleLog (uid : Uid) (level : Nat)
  | consoleError
deriving DecidableEq

/-- How a handler can end abnormally: a `TypeError` from a property access on
`null` / `undefined`, or the rejection of an awaited SDK promise. -/
inductive JsError where
  | typeError
  | rejected
deriving DecidableEq

/-- The mutable state of the module. -/
structure State where
  localAudioTrack : Option Track
  remoteAudioTracks : List (Uid × List Track)
  members : List Speaker
  formDisplay : Display
  roomHeaderDisplay : Display
deriving DecidableEq

/-- State after a handler, the calls it made, and the error it ended with. -/
structure Outcome where
  state : State
  ops : List Op
  error : Option JsError
deriving DecidableEq

/-- The state when the module has been loaded. -/
def initialState : State :=
  { localAudioTrack := none
    remoteAudioTracks := []
    members := []
    formDisplay := Display.initial
    roomHeaderDisplay := Display.initial }

/-- Assignment `obj[k] = v` on an object held as an association list. -/
def setKey (k : Uid) (v : List Track) : List (Uid × List Track) → List (Uid × List Track)
  | [] => [(k, v)]
  | (k1, v1) :: rest => if k1 = k then (k, v) :: rest else (k1, v1) :: setKey k v rest

/-- The statement `delete obj[k]`. -/
def deleteKey (k : Uid) (obj : List (Uid × List Track)) : List (Uid × List Track) :=
  obj.filter (fun p => p.1 ≠ k)

/-- Whether `document.getElementById(uid)` (equally
`document.getElementsByClassName("user-rtc-" + uid)[0]`) finds an element. -/
def hasMember (uid : Uid) (ms : List Speaker) : Bool :=
  ms.any (fun e => e.uid = uid)

/-- The call `document.getElementById(uid).remove()` on `#members`: the first
element with that id is taken out. -/
def removeById (uid : Uid) : List Speaker → List Speaker
  | [] => []
  | e :: rest => if e.uid = uid then rest else e :: removeById uid rest

/-- Assignment to `style.borderColor` of the first element of class
`user-rtc-${uid}`. -/
def setFirstBorder (uid : Uid) (c : BorderColor) : List Speaker → List Speaker
  | [] => []
  | e :: rest =>
    if e.uid = uid then { e with borderColor := c } :: rest
    else e :: setFirstBorder uid c rest

/-- The calls of `initRtc` up to and including `rtcClient.join`, with
`initVolumeIndicator` in place. -/
def initRtcOps (rtcUid : Uid) : List Op :=
  [Op.createClient, Op.on ClientEvent.userJoined, Op.on ClientEvent.userPublished,
   Op.on ClientEvent.userLeft, Op.setParameter 200, Op.enableAudioVolumeIndicator,
   Op.on ClientEvent.volumeIndicator, Op.join rtcUid]

/-- The function `initRtc`.  `joinOk`, `mic` and `publishOk` are the results of
the three awaited promises: `rtcClient.join`, `createMicrophoneAudioTrack`
(`none` when it rejects) and `rtcClient.publish`. -/
def initRtc (rtcUid : Uid) (joinOk : Bool) (mic : Option Track) (publishOk : Bool)
    (s : State) : Outcome :=
  if joinOk then
    match mic with
    | Option.none =>
      { state := s, ops := initRtcOps rtcUid ++ [Op.createMicrophoneAudioTrack],
        error := some JsError.rejected }
    | some t =>
      let s1 := { s with localAudioTrack := some t }
      let ops1 := initRtcOps rtcUid ++ [Op.createMicrophoneAudioTrack, Op.publish t.handle]
      if publishOk then
        { state := { s1 with members := s1.members ++ [{ uid := rtcUid, borderColor := BorderColor.unset }] },
          ops := ops1, error := Option.none }
      else
        { state := s1, ops := ops1, error := some JsError.rejected }
  else
    { state := s, ops := initRtcOps rtcUid, error := some JsError.rejected }

/-- The function `enterRoom`: it calls `initRtc()` without awaiting it, then
hides the lobby form and shows the room header.  A rejection of the `initRtc`
promise is not observed by `enterRoom`, whose own promise resolves. -/
def enterRoom (rtcUid : Uid) (joinOk : Bool) (mic : Option Track) (publishOk : Bool)
    (s : State) : Outcome :=
  let o := initRtc rtcUid joinOk mic publishOk s
  { state := { o.state with formDisplay := Display.none, roomHeaderDisplay := Display.flex },
    ops := o.ops, error := Option.none }

/-- The function `leaveRoom`.  Its first statement reads
`audioTracks.localAudioTrack.stop`, a `TypeError` while the variable is
`null`.  `unpublish()` and `leave()` are called without `await`, so their
promises are not observed; `stop()` and `close()` on a track that is already
closed are taken to return normally.  The variable `localAudioTrack` is not
reset and `remoteAudioTracks` is not touched. -/
def leaveRoom (s : State) : Outcome :=
  match s.localAudioTrack with
  | Option.none => { state := s, ops := [], error := some JsError.typeError }
  | some t =>
    { state :=
        { s with
          localAudioTrack := some { t with playing := false, stopped := true, closed := true }
          formDisplay := Display.block
          roomHeaderDisplay := Display.none
          members := [] },
      ops := [Op.stop t.handle, Op.close t.handle, Op.unpublish, Op.leave],
      error := Option.none }

/-- The function `handleUserJoined`. -/
def handleUserJoined (uid : Uid) (s : State) : Outcome :=
  { state := { s with members := s.members ++ [{ uid := uid, borderColor := BorderColor.unset }] },
    ops := [], error := Option.none }

/-- The function `handleUserPublished`.  `sub` is the result of the awaited
`rtcClient.subscribe(user, mediaType)`: `none` when it rejects, otherwise the
track the SDK stores in `user.audioTrack`. -/
def handleUserPublished (uid : Uid) (mediaType : MediaType) (sub : Option Track)
    (s : State) : Outcome :=
  match sub with
  | Option.none =>
    { state := s, ops := [Op.subscribe uid mediaType], error := some JsError.rejected }
  | some t =>
    if mediaType = MediaType.audio then
      { state :=
          { s with
            remoteAudioTracks := setKey uid [{ t with playing := true }] s.remoteAudioTracks },
        ops := [Op.subscribe uid mediaType, Op.play t.handle], error := Option.none }
    else
      { state := s, ops := [Op.subscribe uid mediaType], error := Option.none }

/-- The function `handleUserLeft`: the `delete` first, then
`document.getElementById(user.uid).remove()`, a `TypeError` when no element
has that id. -/
def handleUserLeft (uid : Uid) (s : State) : Outcome :=
  let s1 := { s with remoteAudioTracks := deleteKey uid s.remoteAudioTracks }
  if hasMember uid s.members then
    { state := { s1 with members := removeById uid s.members }, ops := [], error := Option.none }
  else
    { state := s1, ops := [], error := some JsError.typeError }

/-- The colour one sample assigns: `'#00ff00'` when `volume.level >= 50`,
otherwise `"#fff"`. -/
def sampleColor (v : VolumeSample) : BorderColor :=
  if v.level ≥ 50 then BorderColor.green else BorderColor.white

/-- The body of the `forEach` callback for one sample: `console.log`, then the
`try` block, whose `TypeError` on a missing element is caught and passed to
`console.error`. -/
def volumeSample (v : VolumeSample) (s : State) : Outcome :=
  if hasMember v.uid s.members then
    { state := { s with members := setFirstBorder v.uid (sampleColor v) s.members },
      ops := [Op.consoleLog v.uid v.level, Op.setBorderColor v.uid (sampleColor v)],
      error := Option.none }
  else
    { state := s, ops := [Op.consoleLog v.uid v.level, Op.consoleError], error := Option.none }

/-- The `volume-indicator` handler: `volumes.forEach` over the batch in order. -/
def volumeIndicator : List VolumeSample → State → Outcome
  | [], s => { state := s, ops := [], error := Option.none }
  | v :: vs, s =>
    let o := volumeSample v s
    let r := volumeIndicator vs o.state
    { state := r.state, ops := o.ops ++ r.ops, error := Option.none }

/-- An event the SDK delivers to a registered handler. -/
inductive Event where
  | userJoined (uid : Uid)
  | userPublished (uid : Uid) (mediaType : MediaType) (sub : Option Track)
  | userLeft (uid : Uid)
  | volumeIndicator (volumes : List VolumeSample)

/-- The handler registered for an event. -/
def dispatch : Event → State → Outcome
  | Event.userJoined uid, s => handleUserJoined uid s
  | Event.userPublished uid mediaType sub, s => handleUserPublished uid mediaType sub s
  | Event.userLeft uid, s => handleUserLeft uid s
  | Event.volumeIndicator volumes, s => volumeIndicator volumes s

/-- Delivery of a sequence of events.  An error of one handler rejects that
handler's promise only; the next event is delivered to the state it left. -/
def run : List Event → State → State
  | [], s => s
  | ev :: evs, s => run evs (dispatch ev s).state

/-- The roster as the page shows it: the ids of the children of `#members`. -/
def rosterIds (s : State) : List Uid :=
  s.members.map (fun e => e.uid)

/-- A participant is shown as speaking when its border is `'#00ff00'`. -/
def speaking (e : Speaker) : Bool :=
  decide (e.borderColor = BorderColor.green)

/-- The roster with the speaking flag of every entry. -/
def rosterView (s : State) : List (Uid × Bool) :=
  s.members.map (fun e => (e.uid, speaking e))

/-- Number of entries of `#members` whose id is `uid`. -/
def countId (uid : Uid) (ms : List Speaker) : Nat :=
  (ms.filter (fun e => e.uid = uid)).length

/-- The effect of one event on the number of roster entries of `uid`, counted
on the events alone: a join of `uid` adds one, a leave of `uid` takes one away
unless there is none. -/
def netCount (uid : Uid) (c : Nat) : Event → Nat
  | Event.userJoined u => if u = uid then c + 1 else c
  | Event.userLeft u => if u = uid then c - 1 else c
  | Event.userPublished _ _ _ => c
  | Event.volumeIndicator _ => c

/-- Number of `user-joined` events in a sequence. -/
def joinCount : List Event → Nat
  | [] => 0
  | Event.userJoined _ :: evs => joinCount evs + 1
  | _ :: evs => joinCount evs

/-- Number of `user-left` events in a sequence whose id is in the roster when
the event is delivered. -/
def matchedLeaves : List Event → State → Nat
  | [], _ => 0
  | Event.userLeft u :: evs, s =>
    (if hasMember u s.members then 1 else 0) + matchedLeaves evs (handleUserLeft u s).state
  | ev :: evs, s => matchedLeaves evs (dispatch ev s).state

/-- Level of the last sample of `uid` in a batch, if the batch has one. -/
def lastLevel (uid : Uid) : List VolumeSample → Option Nat
  | [] => Option.none
  | v :: vs =>
    match lastLevel uid vs with
    | some l => some l
    | Option.none => if v.uid = uid then some v.level else Option.none

/-- The speaking flag of a roster entry after a batch, in the words of the
specification: `level >= 50` for the last sample of its id, the previous flag
when the batch has no sample of its id. -/
def speakingAfter (p : Uid × Bool) (batch : List VolumeSample) : Uid × Bool :=
  match lastLevel p.1 batch with
  | some l => (p.1, decide (l ≥ 50))
  | Option.none => p

/-- Reference definition of volume ingestion in the words of the
specification: every roster entry is updated from the batch. -/
def ingestReference (roster : List (Uid × Bool)) (batch : List VolumeSample) :
    List (Uid × Bool) :=
  roster.map (fun p => speakingAfter p batch)

/-- Reference definition of volume ingestion on a roster that may hold an id
more than once: the first entry of an id is updated from the batch, and the
entries behind it see the batch without the samples of that id. -/
def ingestFirstEntry : List (Uid × Bool) → List VolumeSample → List (Uid × Bool)
  | [], _ => []
  | p :: rest, batch =>
    speakingAfter p batch :: ingestFirstEntry rest (batch.filter (fun v => v.uid ≠ p.1))

/-- The console and style calls one ingestion makes on a roster, sample by
sample: a log line, then one assignment of the border colour when the id is in
the roster and one `console.error` when it is not. -/
def volumeOps (ms : List Speaker) : List VolumeSample → List Op
  | [] => []
  | v :: vs =>
    (if hasMember v.uid ms then
        [Op.consoleLog v.uid v.level, Op.setBorderColor v.uid (sampleColor v)]
      else [Op.consoleLog v.uid v.level, Op.consoleError]) ++ volumeOps ms vs

/-- A microphone track as `createMicrophoneAudioTrack` returns it. -/
def micTrack : Track := { handle := 0, playing := false, stopped := false, closed := false }

/-- A remote audio track as `subscribe` returns it. -/
def remoteTrack : Track := { handle := 1, playing := false, stopped := false, closed := false }

/-- The state after `enterRoom` with `initRtc` run to its end, for local id 42. -/
def inRoomState : State := (enterRoom 42 true (some micTrack) true initialState).state

/-- The state after a completed `enterRoom` (join, microphone and publish all
succeed) followed by the delivery of `evs`. -/
def inRoomAfter (rtcUid : Uid) (mic : Track) (evs : List Event) : State :=
  run evs (enterRoom rtcUid true (some mic) true initialState).state

/-- The room of local id 42 after two deliveries of `user-joined` for id 7. -/
def duplicateRosterState : State :=
  run [Event.userJoined 7, Event.userJoined 7] inRoomState

/-! ## Roster lemmas -/

theorem setFirstBorder_uids (uid : Uid) (c : BorderColor) (ms : List Speaker) :
    (setFirstBorder uid c ms).map (fun e => e.uid) = ms.map (fun e => e.uid) := by
  induction ms with
  | nil => rfl
  | cons e rest ih =>
    by_cases h : e.uid = uid
    · simp [setFirstBorder, h]
    · simp [setFirstBorder, h, ih]

theorem hasMember_eq_of_uids {ms ms2 : List Speaker}
    (h : ms2.map (fun e => e.uid) = ms.map (fun e => e.uid)) (uid : Uid) :
    hasMember uid ms2 = hasMember uid ms := by
  have key : ∀ l : List Speaker, hasMember uid l = (l.map (fun e => e.uid)).any (fun u => decide (u = uid)) := by
    intro l
    induction l with
    | nil => rfl
    | cons e rest ih =>
      simp only [hasMember, List.any_cons, List.map_cons] at ih ⊢
      rw [ih]
  rw [key, key, h]

theorem countId_eq_of_uids {ms ms2 : List Speaker}
    (h : ms2.map (fun e => e.uid) = ms.map (fun e => e.uid)) (uid : Uid) :
    countId uid ms2 = countId uid ms := by
  have key : ∀ l : List Speaker, countId uid l = ((l.map (fun e => e.uid)).filter (fun u => decide (u = uid))).length := by
    intro l
    induction l with
    | nil => rfl
    | cons e rest ih =>
      by_cases h : e.uid = uid <;> simp [countId, List.filter_cons, h] at ih ⊢ <;> exact ih
  rw [key, key, h]

theorem volumeSample_members (v : VolumeSample) (s : State) :
    (volumeSample v s).state.members = setFirstBorder v.uid (sampleColor v) s.members := by
  unfold volumeSample
  by_cases h : hasMember v.uid s.members = true
  · simp [h]
  · simp only [h]
    have : ∀ ms : List Speaker, hasMember v.uid ms ≠ true → setFirstBorder v.uid (sampleColor v) ms = ms := by
      intro ms
      induction ms with
      | nil => intro _; rfl
      | cons e rest ih =>
        intro hm
        by_cases he : e.uid = v.uid
        · exact absurd (by simp [hasMember, he]) hm
        · have hr : hasMember v.uid rest ≠ true := by
            intro hc
            apply hm
            simp [hasMember] at hc ⊢
            exact Or.inr hc
          simp [setFirstBorder, he, ih hr]
    simp [this s.members h]

theorem volumeIndicator_uids (b : List VolumeSample) (s : State) :
    (volumeIndicator b s).state.members.map (fun e => e.uid) = s.members.map (fun e => e.uid) := by
  induction b generalizing s with
  | nil => rfl
  | cons v vs ih =>
    simp only [volumeIndicator]
    rw [ih, volumeSample_members, setFirstBorder_uids]

theorem countId_append_single (uid u : Uid) (c : BorderColor) (ms : List Speaker) :
    countId uid (ms ++ [{ uid := u, borderColor := c }])
      = if u = uid then countId uid ms + 1 else countId uid ms := by
  by_cases h : u = uid <;> simp [countId, List.filter_append, h]

theorem countId_removeById (uid u : Uid) (ms : List Speaker) :
    countId uid (removeById u ms) = if u = uid then countId uid ms - 1 else countId uid ms := by
  induction ms with
  | nil => simp [removeById, countId]
  | cons e rest ih =>
    by_cases he : e.uid = u
    · by_cases hu : u = uid
      · subst hu
        simp [removeById, he, countId, List.filter_cons]
      · have : ¬ e.uid = uid := by rw [he]; exact hu
        simp [removeById, he, hu, countId, List.filter_cons, this]
    · by_cases hu : u = uid
      · subst hu
        simp only [removeById, he, if_false, if_true] at ih ⊢
        simp only [countId, List.filter_cons, he, decide_False] at ih ⊢
        simpa using ih
      · simp only [removeById, he, hu, if_false] at ih ⊢
        by_cases h3 : e.uid = uid
        · simp [countId, List.filter_cons, h3] at ih ⊢
          exact ih
        · simp [countId, List.filter_cons, h3] at ih ⊢
          exact ih

theorem countId_zero_of_not_hasMember (uid : Uid) (ms : List Speaker)
    (h : hasMember uid ms = false) : countId uid ms = 0 := by
  induction ms with
  | nil => rfl
  | cons e rest ih =>
    simp [hasMember] at h
    have hr : hasMember uid rest = false := by
      simp [hasMember]
      exact h.2
    simp [countId, List.filter_cons, h.1] at ih ⊢
    exact ih hr

theorem length_removeById (uid : Uid) (ms : List Speaker) (h : hasMember uid ms = true) :
    (removeById uid ms).length + 1 = ms.length := by
  induction ms with
  | nil => simp [hasMember] at h
  | cons e rest ih =>
    by_cases he : e.uid = uid
    · simp [removeById, he]
    · have hr : hasMember uid rest = true := by
        simp [hasMember, he] at h ⊢
        exact h
      simp [removeById, he, ih hr]

theorem dispatch_countId (uid : Uid) (ev : Event) (s : State) :
    countId uid (dispatch ev s).state.members = netCount uid (countId uid s.members) ev := by
  cases ev with
  | userJoined u =>
    simp only [dispatch, handleUserJoined, netCount]
    exact countId_append_single uid u BorderColor.unset s.members
  | userPublished u m sub =>
    cases sub with
    | none => rfl
    | some t =>
      by_cases hm : m = MediaType.audio <;> simp [dispatch, handleUserPublished, hm, netCount]
  | userLeft u =>
    simp only [dispatch, handleUserLeft, netCount]
    by_cases hm : hasMember u s.members = true
    · simp only [hm, if_true]
      exact countId_removeById uid u s.members
    · simp only [hm]
      by_cases hu : u = uid
      · subst hu
        have := countId_zero_of_not_hasMember u s.members (by simpa using hm)
        simp [this]
      · simp [hu]
  | volumeIndicator b =>
    simp only [dispatch, netCount]
    exact countId_eq_of_uids (volumeIndicator_uids b s) uid

theorem run_countId (uid : Uid) (evs : List Event) (s : State) :
    countId uid (run evs s).members = evs.foldl (netCount uid) (countId uid s.members) := by
  induction evs generalizing s with
  | nil => rfl
  | cons ev evs ih =>
    simp only [run, List.foldl_cons]
    rw [ih, dispatch_countId]

theorem volumeIndicator_length (b : List VolumeSample) (s : State) :
    (volumeIndicator b s).state.members.length = s.members.length := by
  have h := congrArg List.length (volumeIndicator_uids b s)
  simpa using h

theorem run_length (evs : List Event) (s : State) :
    (run evs s).members.length + matchedLeaves evs s = s.members.length + joinCount evs := by
  induction evs generalizing s with
  | nil => rfl
  | cons ev evs ih =>
    cases ev with
    | userJoined u =>
      simp only [run, matchedLeaves, joinCount, dispatch]
      rw [ih]
      simp [handleUserJoined]
      omega
    | userPublished u m sub =>
      simp only [run, matchedLeaves, joinCount, dispatch]
      rw [ih]
      cases sub with
      | none => rfl
      | some t => by_cases hm : m = MediaType.audio <;> simp [handleUserPublished, hm]
    | userLeft u =>
      simp only [run, matchedLeaves, joinCount, dispatch]
      have h := ih (handleUserLeft u s).state
      by_cases hm : hasMember u s.members = true
      · have hl := length_removeById u s.members hm
        simp only [handleUserLeft, hm, if_true] at h ⊢
        omega
      · simp only [handleUserLeft, hm] at h ⊢
        simp at h ⊢
        omega
    | volumeIndicator b =>
      simp only [run, matchedLeaves, joinCount, dispatch]
      rw [ih, volumeIndicator_length]

/-! ## Volume batches -/

theorem volumeIndicator_state (b : List VolumeSample) (s : State) :
    (volumeIndicator b s).state = { s with members := (volumeIndicator b s).state.members } := by
  induction b generalizing s with
  | nil => rfl
  | cons v vs ih =>
    simp only [volumeIndicator]
    rw [ih]
    by_cases h : hasMember v.uid s.members = true <;> simp [volumeSample, h]

theorem volumeIndicator_error (b : List VolumeSample) (s : State) :
    (volumeIndicator b s).error = Option.none := by
  cases b <;> rfl

theorem volumeIndicator_members (b : List VolumeSample) (s : State) :
    (volumeIndicator b s).state.members
      = b.foldl (fun ms v => setFirstBorder v.uid (sampleColor v) ms) s.members := by
  induction b generalizing s with
  | nil => rfl
  | cons v vs ih =>
    simp only [volumeIndicator, List.foldl_cons]
    rw [ih, volumeSample_members]

theorem setFirstBorder_of_not_hasMember (uid : Uid) (c : BorderColor) (ms : List Speaker)
    (h : hasMember uid ms = false) : setFirstBorder uid c ms = ms := by
  induction ms with
  | nil => rfl
  | cons e rest ih =>
    simp [hasMember] at h
    have hr : hasMember uid rest = false := by
      simp [hasMember]
      exact h.2
    simp [setFirstBorder, h.1, ih hr]

/-- The border colour of an element after a batch: the colour of the last
sample of its id, its own colour when there is none. -/
theorem foldl_setFirstBorder_cons (b : List VolumeSample) (e : Speaker) (rest : List Speaker) :
    b.foldl (fun ms v => setFirstBorder v.uid (sampleColor v) ms) (e :: rest)
      = { e with borderColor :=
            match lastLevel e.uid b with
            | some l => sampleColor { uid := e.uid, level := l }
            | Option.none => e.borderColor }
        :: (b.filter (fun v => v.uid ≠ e.uid)).foldl
              (fun ms v => setFirstBorder v.uid (sampleColor v) ms) rest := by
  induction b generalizing e rest with
  | nil => rfl
  | cons v vs ih =>
    obtain ⟨eu, ec⟩ := e
    obtain ⟨vu, vl⟩ := v
    simp only [List.foldl_cons, setFirstBorder]
    by_cases h : eu = vu
    · subst h
      simp only [if_true]
      rw [ih]
      cases hl : lastLevel eu vs with
      | none => simp [lastLevel, hl, sampleColor]
      | some l => simp [lastLevel, hl]
    · have hv : ¬ vu = eu := fun hc => h hc.symm
      simp only [h, if_false]
      rw [ih]
      cases hl : lastLevel eu vs with
      | none => simp [lastLevel, hl, hv, List.filter_cons]
      | some l => simp [lastLevel, hl, hv, List.filter_cons]

theorem foldl_setFirstBorder_nil (b : List VolumeSample) :
    b.foldl (fun ms v => setFirstBorder v.uid (sampleColor v) ms) [] = [] := by
  induction b with
  | nil => rfl
  | cons v vs ih => simpa [setFirstBorder] using ih

theorem speaking_after_samples (e : Speaker) (b : List VolumeSample) :
    (e.uid, speaking
        { uid := e.uid,
          borderColor :=
            match lastLevel e.uid b with
            | some l => sampleColor { uid := e.uid, level := l }
            | Option.none => e.borderColor })
      = speakingAfter (e.uid, speaking e) b := by
  unfold speakingAfter
  cases hl : lastLevel e.uid b with
  | none => simp
  | some l =>
    by_cases h50 : l ≥ 50
    · simp [speaking, sampleColor, h50]
    · simp [speaking, sampleColor, h50]

theorem rosterView_foldl (ms : List Speaker) (b : List VolumeSample) :
    (b.foldl (fun ms v => setFirstBorder v.uid (sampleColor v) ms) ms).map
        (fun e => (e.uid, speaking e))
      = ingestFirstEntry (ms.map (fun e => (e.uid, speaking e))) b := by
  induction ms generalizing b with
  | nil => rw [foldl_setFirstBorder_nil]; rfl
  | cons e rest ih =>
    rw [foldl_setFirstBorder_cons]
    simp only [List.map_cons, ingestFirstEntry]
    rw [ih, speaking_after_samples]

theorem lastLevel_filter_ne (uid u : Uid) (h : uid ≠ u) (b : List VolumeSample) :
    lastLevel uid (b.filter (fun v => v.uid ≠ u)) = lastLevel uid b := by
  induction b with
  | nil => rfl
  | cons v vs ih =>
    have ih2 : lastLevel uid (List.filter (fun v => !decide (v.uid = u)) vs) = lastLevel uid vs := by
      simpa using ih
    by_cases hv : v.uid = u
    · have hne : ¬ u = uid := fun hc => h hc.symm
      have hf : (List.filter (fun v => decide (v.uid ≠ u)) (v :: vs))
          = List.filter (fun v => decide (v.uid ≠ u)) vs := by
        simp [List.filter_cons, hv]
      rw [hf, ih]
      simp only [lastLevel, hv, hne, if_false]
      cases lastLevel uid vs <;> rfl
    · simp [List.filter_cons, hv, lastLevel, ih2]

theorem ingestReference_filter (u : Uid) (roster : List (Uid × Bool)) (b : List VolumeSample)
    (h : ∀ p ∈ roster, p.1 ≠ u) :
    ingestReference roster (b.filter (fun v => v.uid ≠ u)) = ingestReference roster b := by
  unfold ingestReference
  apply List.map_congr_left
  intro p hp
  unfold speakingAfter
  rw [lastLevel_filter_ne p.1 u (h p hp) b]

theorem ingestFirstEntry_eq_reference (roster : List (Uid × Bool)) (b : List VolumeSample)
    (h : (roster.map Prod.fst).Nodup) : ingestFirstEntry roster b = ingestReference roster b := by
  induction roster generalizing b with
  | nil => rfl
  | cons p rest ih =>
    simp only [List.map_cons, List.nodup_cons] at h
    simp only [ingestFirstEntry]
    rw [ih _ h.2, ingestReference_filter]
    · rfl
    · intro q hq hc
      exact h.1 (hc ▸ List.mem_map_of_mem Prod.fst hq)

theorem foldl_setFirstBorder_known (b : List VolumeSample) (ms ms0 : List Speaker)
    (h : ms.map (fun e => e.uid) = ms0.map (fun e => e.uid)) :
    b.foldl (fun ms v => setFirstBorder v.uid (sampleColor v) ms) ms
      = (b.filter (fun v => hasMember v.uid ms0)).foldl
          (fun ms v => setFirstBorder v.uid (sampleColor v) ms) ms := by
  induction b generalizing ms with
  | nil => rfl
  | cons v vs ih =>
    by_cases hm : hasMember v.uid ms0 = true
    · simp only [List.filter_cons, hm, if_true, List.foldl_cons]
      exact ih _ ((setFirstBorder_uids _ _ _).trans h)
    · have hm0 : hasMember v.uid ms0 = false := by simpa using hm
      have hm1 : hasMember v.uid ms = false := by
        rw [hasMember_eq_of_uids h]; exact hm0
      simp only [List.filter_cons, hm0, List.foldl_cons]
      rw [setFirstBorder_of_not_hasMember _ _ _ hm1]
      exact ih _ h

theorem foldl_setFirstBorder_idem (ms : List Speaker) (b : List VolumeSample) :
    b.foldl (fun ms v => setFirstBorder v.uid (sampleColor v) ms)
        (b.foldl (fun ms v => setFirstBorder v.uid (sampleColor v) ms) ms)
      = b.foldl (fun ms v => setFirstBorder v.uid (sampleColor v) ms) ms := by
  induction ms generalizing b with
  | nil => rw [foldl_setFirstBorder_nil, foldl_setFirstBorder_nil]
  | cons e rest ih =>
    rw [foldl_setFirstBorder_cons b e rest, foldl_setFirstBorder_cons]
    simp only
    rw [ih]
    cases hl : lastLevel e.uid b <;> simp

theorem volumeOps_congr (b : List VolumeSample) (ms ms2 : List Speaker)
    (h : ms2.map (fun e => e.uid) = ms.map (fun e => e.uid)) :
    volumeOps ms2 b = volumeOps ms b := by
  induction b with
  | nil => rfl
  | cons v vs ih => simp only [volumeOps, ih, hasMember_eq_of_uids h]

theorem volumeIndicator_ops (b : List VolumeSample) (s : State) :
    (volumeIndicator b s).ops = volumeOps s.members b := by
  induction b generalizing s with
  | nil => rfl
  | cons v vs ih =>
    simp only [volumeIndicator, volumeOps]
    have hc := volumeOps_congr vs s.members (volumeSample v s).state.members
      (by rw [volumeSample_members, setFirstBorder_uids])
    rw [ih, hc]
    by_cases hm : hasMember v.uid s.members = true <;> simp [volumeSample, hm]

/-! ## Frame lemmas for event delivery -/

theorem dispatch_localAudioTrack (ev : Event) (s : State) :
    (dispatch ev s).state.localAudioTrack = s.localAudioTrack := by
  cases ev with
  | userJoined u => rfl
  | userPublished u m sub =>
    cases sub with
    | none => rfl
    | some t => by_cases hm : m = MediaType.audio <;> simp [dispatch, handleUserPublished, hm]
  | userLeft u =>
    by_cases hm : hasMember u s.members = true <;> simp [dispatch, handleUserLeft, hm]
  | volumeIndicator b =>
    simp only [dispatch]
    rw [volumeIndicator_state]

theorem run_localAudioTrack (evs : List Event) (s : State) :
    (run evs s).localAudioTrack = s.localAudioTrack := by
  induction evs generalizing s with
  | nil => rfl
  | cons ev evs ih =>
    simp only [run]
    rw [ih, dispatch_localAudioTrack]

/-! ## The claims -/

/-- C1 (amended): for every sequence of events and every state, the number of
roster entries of each id afterwards is the count before, plus one per
`user-joined` of that id, minus one per `user-left` of that id that finds an
entry (never below zero); the roster size is the size before plus the joins
minus the leaves that found their id; and `user-joined` appends one entry for
its id whatever the roster holds, also when the id is already there. -/
theorem roster_counts_joins_and_leaves (evs : List Event) (s : State) :
    (∀ uid, countId uid (run evs s).members
        = evs.foldl (netCount uid) (countId uid s.members)) ∧
    (run evs s).members.length + matchedLeaves evs s = s.members.length + joinCount evs ∧
    (∀ uid, (handleUserJoined uid (run evs s)).state.members
        = (run evs s).members ++ [{ uid := uid, borderColor := BorderColor.unset }]) :=
  ⟨fun uid => run_countId uid evs s, run_length evs s, fun _ => rfl⟩

/-- C1 (counterexample): in the room of local id 42, two deliveries of
`user-joined` for id 7 leave id 7 twice in the roster, and the second delivery
changes the state. -/
theorem roster_duplicate_join_counterexample :
    rosterIds (run [Event.userJoined 7, Event.userJoined 7] inRoomState) = [42, 7, 7] ∧
    ¬ (rosterIds (run [Event.userJoined 7, Event.userJoined 7] inRoomState)).Nodup ∧
    (handleUserJoined 7 (run [Event.userJoined 7] inRoomState)).state
      ≠ run [Event.userJoined 7] inRoomState := by
  decide

/-- C2 (failing input): `user-left` for id 7 while no element of the page has
id 7 ends with a `TypeError`, the first time in the room of local id 42 and as
the second of two consecutive `user-left` for id 7 after it had joined. -/
theorem handleUserLeft_absent_id_throws :
    (handleUserLeft 7 inRoomState).error = some JsError.typeError ∧
    (handleUserLeft 7 (handleUserJoined 7 inRoomState).state).error = Option.none ∧
    (handleUserLeft 7 (handleUserLeft 7 (handleUserJoined 7 inRoomState).state).state).error
      = some JsError.typeError := by
  decide

/-- C3 (amended): after a completed enter and any sequence of events,
`leaveRoom` ends without error with the roster empty and the local microphone
track stopped and closed, after the calls stop, close, unpublish, leave; the
closed local track stays stored in `audioTracks.localAudioTrack` and
`audioTracks.remoteAudioTracks` is as it was before the call. -/
theorem leaveRoom_after_enter_and_events (rtcUid : Uid) (mic : Track) (evs : List Event) :
    (leaveRoom (inRoomAfter rtcUid mic evs)).error = Option.none ∧
    (leaveRoom (inRoomAfter rtcUid mic evs)).state.members = [] ∧
    (leaveRoom (inRoomAfter rtcUid mic evs)).state.localAudioTrack
      = some { handle := mic.handle, playing := false, stopped := true, closed := true } ∧
    (leaveRoom (inRoomAfter rtcUid mic evs)).state.remoteAudioTracks
      = (inRoomAfter rtcUid mic evs).remoteAudioTracks ∧
    (leaveRoom (inRoomAfter rtcUid mic evs)).ops
      = [Op.stop mic.handle, Op.close mic.handle, Op.unpublish, Op.leave] := by
  have h : (inRoomAfter rtcUid mic evs).localAudioTrack = some mic := by
    unfold inRoomAfter
    rw [run_localAudioTrack]
    rfl
  simp [leaveRoom, h]

/-- C3 (counterexample): enter as local id 42, `user-joined` 7, `user-published`
7 audio with a successful subscribe, then `leaveRoom`: the remote track of 7 is
still stored, and so is the local track. -/
theorem leaveRoom_keeps_tracks_counterexample :
    (leaveRoom (inRoomAfter 42 micTrack
        [Event.userJoined 7, Event.userPublished 7 MediaType.audio (some remoteTrack)])).state.remoteAudioTracks
      = [(7, [{ handle := 1, playing := true, stopped := false, closed := false }])] ∧
    (leaveRoom (inRoomAfter 42 micTrack
        [Event.userJoined 7, Event.userPublished 7 MediaType.audio (some remoteTrack)])).state.localAudioTrack
      ≠ Option.none := by
  decide

/-- C4 (amended): `leaveRoom` while no local track is stored (before an enter
has acquired the microphone) makes no stop, close, unpublish or leave call and
leaves the state unchanged; `leaveRoom` directly after a `leaveRoom` that found
a local track does not fail, repeats the calls stop, close, unpublish, leave,
and leaves the state as the first call left it. -/
theorem leaveRoom_outside_room (s : State) :
    (s.localAudioTrack = Option.none →
      (leaveRoom s).state = s ∧ (leaveRoom s).ops = []) ∧
    (∀ t, s.localAudioTrack = some t →
      (leaveRoom (leaveRoom s).state).error = Option.none ∧
      (leaveRoom s).ops = [Op.stop t.handle, Op.close t.handle, Op.unpublish, Op.leave] ∧
      (leaveRoom (leaveRoom s).state).ops
        = [Op.stop t.handle, Op.close t.handle, Op.unpublish, Op.leave] ∧
      (leaveRoom (leaveRoom s).state).state = (leaveRoom s).state) := by
  constructor
  · intro h
    simp [leaveRoom, h]
  · intro t h
    simp [leaveRoom, h]

/-- C4 (witness): the module as loaded has no local track, and the room of
local id 42 has the microphone track. -/
theorem leaveRoom_outside_room_witness :
    ((leaveRoom initialState).state = initialState ∧ (leaveRoom initialState).ops = []) ∧
    ((leaveRoom (leaveRoom inRoomState).state).error = Option.none ∧
      (leaveRoom inRoomState).ops = [Op.stop 0, Op.close 0, Op.unpublish, Op.leave] ∧
      (leaveRoom (leaveRoom inRoomState).state).ops
        = [Op.stop 0, Op.close 0, Op.unpublish, Op.leave] ∧
      (leaveRoom (leaveRoom inRoomState).state).state = (leaveRoom inRoomState).state) :=
  ⟨(leaveRoom_outside_room initialState).1 rfl,
   (leaveRoom_outside_room inRoomState).2 micTrack rfl⟩

/-- C4 (counterexample): the second of two consecutive `leaveRoom` calls in
the room of local id 42 stops and closes the track, unpublishes and leaves
again; and `leaveRoom` on the module as loaded ends with a `TypeError`. -/
theorem leaveRoom_twice_counterexample :
    (leaveRoom (leaveRoom inRoomState).state).ops
      = [Op.stop 0, Op.close 0, Op.unpublish, Op.leave] ∧
    (leaveRoom initialState).error = some JsError.typeError := by
  decide

/-- C5 (amended): when join and microphone acquisition succeed and publish
rejects, `initRtc` ends with that rejection, the roster is as before the call
(empty from the module as loaded), no element for the local id is inserted, no
stop or close call is made, and the acquired microphone track stays stored in
`audioTracks.localAudioTrack` as it was acquired. -/
theorem enterRoom_publish_rejected (rtcUid : Uid) (t : Track) (s : State) :
    (initRtc rtcUid true (some t) false s).error = some JsError.rejected ∧
    (enterRoom rtcUid true (some t) false s).state.members = s.members ∧
    (enterRoom rtcUid true (some t) false initialState).state.members = [] ∧
    (enterRoom rtcUid true (some t) false s).state.localAudioTrack = some t ∧
    (enterRoom rtcUid true (some t) false s).ops
      = initRtcOps rtcUid ++ [Op.createMicrophoneAudioTrack, Op.publish t.handle] := by
  simp [enterRoom, initRtc, initialState]

/-- C5 (counterexample): enter as local id 42 on the module as loaded with a
rejected publish: the microphone track is still stored, neither stopped nor
closed. -/
theorem enterRoom_publish_rejected_counterexample :
    (enterRoom 42 true (some micTrack) false initialState).state.localAudioTrack
      = some { handle := 0, playing := false, stopped := false, closed := false } ∧
    (enterRoom 42 true (some micTrack) false initialState).state.localAudioTrack
      ≠ Option.none := by
  decide

/-- C6: when the subscribe of `user-published(id, audio)` rejects, the state
after the handler is the state before it (roster and stored tracks alike), and
the only call made is the subscribe itself: no track is stored and no `play`
is called. -/
theorem handleUserPublished_subscribe_rejected (uid : Uid) (s : State) :
    (handleUserPublished uid MediaType.audio Option.none s).state = s ∧
    (handleUserPublished uid MediaType.audio Option.none s).state.members = s.members ∧
    (handleUserPublished uid MediaType.audio Option.none s).state.remoteAudioTracks
      = s.remoteAudioTracks ∧
    (handleUserPublished uid MediaType.audio Option.none s).ops
      = [Op.subscribe uid MediaType.audio] ∧
    (∀ k, Op.play k ∉ (handleUserPublished uid MediaType.audio Option.none s).ops) := by
  simp [handleUserPublished]

/-- C7 (amended): for `user-published(id, mediaType)` with a media type other
than audio, the handler makes exactly one call, the subscribe for that id and
media type; no track is stored, no `play` is called, and the state is
unchanged. -/
theorem handleUserPublished_not_audio (uid : Uid) (m : MediaType) (sub : Option Track)
    (s : State) (hm : m ≠ MediaType.audio) :
    (handleUserPublished uid m sub s).state = s ∧
    (handleUserPublished uid m sub s).ops = [Op.subscribe uid m] := by
  cases sub with
  | none => simp [handleUserPublished]
  | some t => simp [handleUserPublished, hm]

/-- C7 (witness): `user-published(7, video)` with a successful subscribe in the
room of local id 42. -/
theorem handleUserPublished_not_audio_witness :
    MediaType.video ≠ MediaType.audio ∧
    (handleUserPublished 7 MediaType.video (some remoteTrack) inRoomState).state = inRoomState ∧
    (handleUserPublished 7 MediaType.video (some remoteTrack) inRoomState).ops
      = [Op.subscribe 7 MediaType.video] :=
  ⟨by decide,
   handleUserPublished_not_audio 7 MediaType.video (some remoteTrack) inRoomState (by decide)⟩

/-- C7 (counterexample): `user-published(7, video)` in the room of local id 42
issues a transport subscribe for the video of 7. -/
theorem handleUserPublished_video_counterexample :
    Op.subscribe 7 MediaType.video
      ∈ (handleUserPublished 7 MediaType.video (some remoteTrack) inRoomState).ops ∧
    (handleUserPublished 7 MediaType.video (some remoteTrack) inRoomState).ops ≠ [] := by
  decide

/-- C8 (amended): for every state and every batch, the roster with its
speaking flags after the `volume-indicator` handler is that of the reference
definition in which the first roster entry of each id gets
`level >= 50` of the last sample of that id and every other entry (an id
without sample, or a later entry of an id that is in the roster twice) keeps
its flag; on a roster without a repeated id this is the reference definition
of the specification. -/
theorem volumeIndicator_ingest (b : List VolumeSample) (s : State) :
    rosterView (volumeIndicator b s).state = ingestFirstEntry (rosterView s) b ∧
    ((rosterIds s).Nodup →
      rosterView (volumeIndicator b s).state = ingestReference (rosterView s) b) := by
  have h1 : rosterView (volumeIndicator b s).state = ingestFirstEntry (rosterView s) b := by
    unfold rosterView
    rw [volumeIndicator_members, rosterView_foldl]
  refine ⟨h1, fun hn => ?_⟩
  rw [h1]
  apply ingestFirstEntry_eq_reference
  have : (rosterView s).map Prod.fst = rosterIds s := by
    simp [rosterView, rosterIds, List.map_map, Function.comp_def]
  rw [this]
  exact hn

/-- C8 (witness): the room of local id 42 with 7 and 9 joined; level 50 is
speaking, level 49 is not, the last sample of an id decides, and 9 keeps its
flag. -/
theorem volumeIndicator_ingest_witness :
    (rosterIds (run [Event.userJoined 7, Event.userJoined 9] inRoomState)).Nodup ∧
    rosterView (volumeIndicator [⟨7, 80⟩, ⟨42, 50⟩, ⟨7, 49⟩]
        (run [Event.userJoined 7, Event.userJoined 9] inRoomState)).state
      = ingestReference (rosterView (run [Event.userJoined 7, Event.userJoined 9] inRoomState))
          [⟨7, 80⟩, ⟨42, 50⟩, ⟨7, 49⟩] ∧
    rosterView (volumeIndicator [⟨7, 80⟩, ⟨42, 50⟩, ⟨7, 49⟩]
        (run [Event.userJoined 7, Event.userJoined 9] inRoomState)).state
      = [(42, true), (7, false), (9, false)] :=
  ⟨by decide,
   (volumeIndicator_ingest [⟨7, 80⟩, ⟨42, 50⟩, ⟨7, 49⟩]
      (run [Event.userJoined 7, Event.userJoined 9] inRoomState)).2 (by decide),
   by decide⟩

/-- C8 (counterexample): with id 7 twice in the roster, the batch with level
80 for 7 marks the first entry of 7 as speaking and leaves the second as it
was, where the reference definition of the specification marks both. -/
theorem volumeIndicator_duplicate_counterexample :
    rosterView (volumeIndicator [⟨7, 80⟩] duplicateRosterState).state
      = [(42, false), (7, true), (7, false)] ∧
    ingestReference (rosterView duplicateRosterState) [⟨7, 80⟩]
      = [(42, false), (7, true), (7, true)] ∧
    rosterView (volumeIndicator [⟨7, 80⟩] duplicateRosterState).state
      ≠ ingestReference (rosterView duplicateRosterState) [⟨7, 80⟩] := by
  decide

/-- C9: for every state and every batch, the handler does not fail, and the
state after the batch is the state after the batch without the samples whose
id is not in the roster. -/
theorem volumeIndicator_unknown_ids_ignored (b : List VolumeSample) (s : State) :
    (volumeIndicator b s).error = Option.none ∧
    (volumeIndicator b s).state
      = (volumeIndicator (b.filter (fun v => hasMember v.uid s.members)) s).state ∧
    rosterView (volumeIndicator b s).state
      = rosterView (volumeIndicator (b.filter (fun v => hasMember v.uid s.members)) s).state := by
  have h : (volumeIndicator b s).state
      = (volumeIndicator (b.filter (fun v => hasMember v.uid s.members)) s).state := by
    rw [volumeIndicator_state b s, volumeIndicator_state (b.filter _) s,
      volumeIndicator_members, volumeIndicator_members]
    rw [foldl_setFirstBorder_known b s.members s.members rfl]
  exact ⟨volumeIndicator_error b s, h, by rw [h]⟩

/-- C10 (amended): for every state and every batch, a second run of the
handler on the same batch directly after the first leaves the state, and with
it every speaking flag, as the first run left it; each run makes one log call
per sample, then one assignment of the border colour for a sample whose id is
in the roster and one `console.error` for a sample whose id is not, whether or
not a flag changes, so the second run repeats the calls of the first. -/
theorem volumeIndicator_twice (b : List VolumeSample) (s : State) :
    (volumeIndicator b (volumeIndicator b s).state).state = (volumeIndicator b s).state ∧
    rosterView (volumeIndicator b (volumeIndicator b s).state).state
      = rosterView (volumeIndicator b s).state ∧
    (volumeIndicator b s).ops = volumeOps s.members b ∧
    (volumeIndicator b (volumeIndicator b s).state).ops = (volumeIndicator b s).ops := by
  have h : (volumeIndicator b (volumeIndicator b s).state).state = (volumeIndicator b s).state := by
    rw [volumeIndicator_state b (volumeIndicator b s).state, volumeIndicator_members,
      volumeIndicator_members, foldl_setFirstBorder_idem]
    conv_rhs => rw [volumeIndicator_state b s, volumeIndicator_members]
    rw [volumeIndicator_state b s]
  refine ⟨h, by rw [h], volumeIndicator_ops b s, ?_⟩
  rw [volumeIndicator_ops, volumeIndicator_ops]
  exact volumeOps_congr b _ _ (volumeIndicator_uids b s)

/-- C10 (counterexample): in the room of local id 42, the second run on the
batch with level 80 for 42 changes no speaking flag and assigns the border
colour of 42 again. -/
theorem volumeIndicator_twice_counterexample :
    rosterView (volumeIndicator [⟨42, 80⟩] (volumeIndicator [⟨42, 80⟩] inRoomState).state).state
      = rosterView (volumeIndicator [⟨42, 80⟩] inRoomState).state ∧
    (volumeIndicator [⟨42, 80⟩] (volumeIndicator [⟨42, 80⟩] inRoomState).state).ops
      = [Op.consoleLog 42 80, Op.setBorderColor 42 BorderColor.green] := by
  decide

end VoiceRooms
